import Mathlib

/-!
Verification of the printer-agent control plane: a shallow embedding of the
Go sources (dispatcher routing and retry, transport retry, token handling,
registry diffing, acquisition-loop backoff, per-printer mutual exclusion,
and the SSE reconnect loop), with theorems settling the specification's
claims against it.
-/

namespace PrinterAgent

/-! ## Data model (internal/api/job.go, internal/registry/registry.go)

Job kinds are strings in the source (`type JobType string`); the four
declared constants are `receipt`, `label`, `sticker_image`, `open_drawer`.
`put_aside` is NOT a job kind: it is the `type` field inside a receipt
payload (`ReceiptPayload.Type == "put_aside"`).  Printer classes are the
strings `receipt`, `label`, `a4`.
-/

def jobTypeReceipt : String := "receipt"

def jobTypeLabel : String := "label"

def jobTypeStickerImage : String := "sticker_image"

def jobTypeOpenDrawer : String := "open_drawer"

def printerTypeReceipt : String := "receipt"

def printerTypeLabel : String := "label"

def printerTypeA4 : String := "a4"

/-- Printer record of the registry (`registry.PrinterInfo`). -/
structure PrinterInfo where
  id : String
  ptype : String
  devicePath : String
  available : Bool
deriving Repr, DecidableEq

/-- Job as fetched from the remote API (`api.Job`); the payload is kept
opaque, and only the fields the control plane reads are modelled. -/
structure Job where
  id : String
  leaseId : String
  jtype : String
  printerCode : String
  printerName : String
  printerType : String
deriving Repr, DecidableEq

/-! ## Registry lookups (internal/registry/registry.go)

The registry's printer map is modelled as a list of records keyed by id.
`Registry.Get` is an exact lookup by id; `Registry.GetByType` returns the
first available printer of the class (Go map iteration picks an arbitrary
available one; the list order stands in for that choice).
-/

/-- `Registry.Get`: exact lookup by printer id; error when absent. -/
def registryGet (printers : List PrinterInfo) (id : String) :
    Except String PrinterInfo :=
  match printers.find? (fun p => p.id = id) with
  | some p => .ok p
  | none => .error ("printer not found: " ++ id)

/-- `Registry.GetByType`: first available printer of the class. -/
def registryGetByType (printers : List PrinterInfo) (t : String) :
    Except String PrinterInfo :=
  match printers.find? (fun p => p.ptype = t && p.available) with
  | some p => .ok p
  | none => .error ("no available printer of type: " ++ t)

/-! ## Dispatcher printer resolution (dispatcher.resolvePrinter) -/

/-- `Dispatcher.resolvePrinter`: a non-empty `job.printer.code` hint is an
exact registry lookup; otherwise the job kind routes to a printer class;
any other kind is an error. -/
def resolvePrinter (printers : List PrinterInfo) (job : Job) :
    Except String PrinterInfo :=
  if job.printerCode ≠ "" then
    registryGet printers job.printerCode
  else if job.jtype = jobTypeReceipt || job.jtype = jobTypeOpenDrawer then
    registryGetByType printers printerTypeReceipt
  else if job.jtype = jobTypeLabel || job.jtype = jobTypeStickerImage then
    registryGetByType printers printerTypeLabel
  else
    .error ("cannot determine printer type for job type: " ++ job.jtype)

/-! ## Non-retryable classification and dispatch retry (dispatcher.Dispatch)

`strings.Contains` is modelled on character lists; the driver call of each
attempt (external printer drivers are out of scope) is abstracted as a
function from the 1-based attempt number to `none` (success) or
`some msg` (failure with message `msg`).
-/

/-- `strings.Contains` on character lists: `pat` occurs as a contiguous
substring of the remaining hay. -/
def charsContain (pat : List Char) : List Char → Bool
  | [] => pat.isEmpty
  | c :: t => pat.isPrefixOf (c :: t) || charsContain pat t

/-- `strings.Contains s pat`. -/
def stringContains (s pat : String) : Bool :=
  charsContain pat.toList s.toList

/-- `dispatcher.isNonRetryableError`: parsing errors, unknown job types and
missing image data are terminal. -/
def isNonRetryableError (msg : String) : Bool :=
  stringContains msg "parsing" ||
  stringContains msg "unknown job type" ||
  stringContains msg "no image data"

/-- `dispatcher.Config`: retry budget and base delay (nanoseconds). -/
structure DispatcherConfig where
  maxRetries : Nat
  retryDelay : Nat
deriving Repr, DecidableEq

/-- `dispatcher.DefaultConfig`: 3 attempts, 2 s base delay. -/
def defaultDispatcherConfig : DispatcherConfig :=
  ⟨3, 2000000000⟩

/-- `Dispatcher.retryDelay`: `RetryDelay * 2^(attempt-1)`. -/
def retryDelay (cfg : DispatcherConfig) (attempt : Nat) : Nat :=
  cfg.retryDelay * 2 ^ (attempt - 1)

/-- Result of `Dispatcher.Dispatch`. -/
inductive DispatchOutcome where
  | ok
  | resolveFailed (msg : String)
  | unavailable (id : String)
  | nonRetryable (msg : String)
  | exhausted (lastErr : Option String)
deriving Repr, DecidableEq

/-- Observable trace of one `Dispatch` call: its outcome, the number of
driver invocations made, and the sleeps (nanoseconds) between attempts. -/
structure DispatchTrace where
  outcome : DispatchOutcome
  attempts : Nat
  delays : List Nat
deriving Repr, DecidableEq

/-- The retry loop of `Dispatcher.Dispatch`, recursing on the remaining
attempt budget; `attempt` is the 1-based number of the next attempt.
Sleeps happen only when another attempt remains. -/
def dispatchGo (cfg : DispatcherConfig) (driver : Nat → Option String) :
    Nat → Nat → DispatchTrace
  | _, 0 => ⟨.exhausted none, 0, []⟩
  | attempt, r + 1 =>
    match driver attempt with
    | none => ⟨.ok, 1, []⟩
    | some msg =>
      if isNonRetryableError msg then ⟨.nonRetryable msg, 1, []⟩
      else if r = 0 then ⟨.exhausted (some msg), 1, []⟩
      else
        let t := dispatchGo cfg driver (attempt + 1) r
        ⟨t.outcome, t.attempts + 1, retryDelay cfg attempt :: t.delays⟩

/-- `Dispatcher.Dispatch`: resolve the printer, require availability,
then run the retry loop. -/
def dispatchRun (cfg : DispatcherConfig) (printers : List PrinterInfo)
    (job : Job) (driver : Nat → Option String) : DispatchTrace :=
  match resolvePrinter printers job with
  | .error e => ⟨.resolveFailed e, 0, []⟩
  | .ok p =>
    if !p.available then ⟨.unavailable p.id, 0, []⟩
    else dispatchGo cfg driver 1 cfg.maxRetries

/-! ## Transport retry (api.Client.doWithRetry)

One HTTP attempt either fails at the transport level or yields a status
code; the context is modelled by a predicate saying whether cancellation
fires during the backoff preceding a given (0-based) attempt index.
Backoffs are in seconds (`1<<(attempt-1)` seconds in the source).
-/

/-- Outcome of a single `httpClient.Do` call. -/
inductive HttpAttempt where
  | netErr (msg : String)
  | resp (status : Nat)
deriving Repr, DecidableEq

/-- Result of `doWithRetry`. -/
inductive RetryOutcome where
  | canceled
  | response (status : Nat)
  | maxRetriesExceeded (lastErr : Option String)
deriving Repr, DecidableEq

/-- Observable trace of one `doWithRetry` call: outcome, number of HTTP
attempts performed, and the backoffs (seconds) actually slept. -/
structure RetryTrace where
  outcome : RetryOutcome
  attempts : Nat
  backoffs : List Nat
deriving Repr, DecidableEq

/-- The loop body of `doWithRetry`: before every attempt but the first,
either the context fires during the backoff (abort) or `2^(attempt-1)`
seconds are slept; then a 5xx status or transport error records the last
error and continues, any other response returns verbatim. -/
def doWithRetryGo (net : Nat → HttpAttempt) (canceled : Nat → Bool) :
    Nat → Nat → Option String → RetryTrace
  | _, 0, lastErr => ⟨.maxRetriesExceeded lastErr, 0, []⟩
  | attempt, r + 1, _lastErr =>
    if attempt ≠ 0 && canceled attempt then ⟨.canceled, 0, []⟩
    else
      let pre : List Nat := if attempt ≠ 0 then [2 ^ (attempt - 1)] else []
      match net attempt with
      | .netErr m =>
        let t := doWithRetryGo net canceled (attempt + 1) r (some m)
        ⟨t.outcome, t.attempts + 1, pre ++ t.backoffs⟩
      | .resp s =>
        if 500 ≤ s then
          let t := doWithRetryGo net canceled (attempt + 1) r
            (some ("server error: " ++ toString s))
          ⟨t.outcome, t.attempts + 1, pre ++ t.backoffs⟩
        else ⟨.response s, 1, pre⟩

/-- `Client.doWithRetry`, starting at attempt index 0 with no last error. -/
def doWithRetry (maxRetries : Nat) (net : Nat → HttpAttempt)
    (canceled : Nat → Bool) : RetryTrace :=
  doWithRetryGo net canceled 0 maxRetries none

/-- `api.ClientConfig` after `NewClient` defaulting: zero timeout becomes
30 s, zero max retries becomes 3. -/
def newClientConfig (timeout maxRetries : Nat) : Nat × Nat :=
  (if timeout = 0 then 30 else timeout,
   if maxRetries = 0 then 3 else maxRetries)

/-- An attempt outcome that `doWithRetry` retries: a transport-level
failure or a 5xx status. -/
def retryableFail : HttpAttempt → Bool
  | .netErr _ => true
  | .resp s => 500 ≤ s

/-- The last-error text `doWithRetry` records for a failed attempt. -/
def attemptErrText : HttpAttempt → String
  | .netErr m => m
  | .resp s => "server error: " ++ toString s

/-! ## Fetch-next (api.Client.FetchNextJob) -/

/-- `api.FetchNextJobParams`: optional filters for the next-job request. -/
structure FetchNextJobParams where
  jtype : String
  printerCode : String
  leaseDuration : Int
deriving Repr, DecidableEq

/-- The HTTP method used by `FetchNextJob`. -/
def fetchNextMethod : String := "GET"

/-- The query-parameter fragments appended by `FetchNextJob`: each filter
is included only when set (`lease_duration` only when positive). -/
def fetchNextQuery (params : Option FetchNextJobParams) : List String :=
  match params with
  | none => []
  | some p =>
    (if p.jtype ≠ "" then ["type=" ++ p.jtype] else []) ++
    (if p.printerCode ≠ "" then ["printer_code=" ++ p.printerCode] else []) ++
    (if 0 < p.leaseDuration then ["lease_duration=" ++ toString p.leaseDuration]
     else [])

/-- The URL built by `FetchNextJob`: the jobs endpoint plus the
`&`-separated query when any parameter is present. -/
def fetchNextURL (baseURL : String) (params : Option FetchNextJobParams) :
    String :=
  let query := fetchNextQuery params
  baseURL ++ "/api/printer-agent/jobs/next" ++
    (if query.isEmpty then "" else "?" ++ String.intercalate "&" query)

/-- Response handling of `FetchNextJob`: non-200 statuses are errors; a
decoded body carries the `success` flag and the `data` field, which is
`none` when the server sent `"data": null`; `FetchNextJob` returns that
`data` field directly (so a null job becomes an empty result). -/
def fetchNextResult (status : Nat) (body : Option (Bool × Option Job)) :
    Except String (Option Job) :=
  if status ≠ 200 then .error ("unexpected status " ++ toString status)
  else
    match body with
    | none => .error "decoding response"
    | some (_, data) => .ok data

/-- The lease duration the client sends, if any: `FetchNextJob` includes
the `lease_duration` parameter exactly when it is positive. -/
def sentLeaseDuration (params : Option FetchNextJobParams) : Option Int :=
  match params with
  | none => none
  | some p => if 0 < p.leaseDuration then some p.leaseDuration else none

/-- Modelled from the spec: the server-side interpretation of the
`lease_duration` query parameter is not part of this repository (the server
is an external collaborator); per the spec and the `FetchNextJobParams`
doc comment, an absent parameter defaults to 60 seconds and a sent value
is bounded to the range 10…300 seconds. -/
def serverLeaseDuration (sent : Option Int) : Int :=
  match sent with
  | none => 60
  | some v => max 10 (min 300 v)

/-! ## Token authority (api.Authenticator.GetToken, api.Client.setHeaders)

The credential state is the stored token and its absolute expiry (unix
seconds); the outcome of an `Authenticate` call is either an error or the
replacement state it installs.
-/

/-- Stored credential state of the `Authenticator`. -/
structure AuthState where
  token : String
  expiresAt : Int
deriving Repr, DecidableEq

/-- `Authenticator.GetToken`: return the stored token unless it is absent
or expires in under 5 minutes, in which case `Authenticate` runs and its
error, if any, is returned (the stale token is NOT returned on refresh
failure). -/
def getToken (st : AuthState) (now : Int)
    (authResult : Except String AuthState) :
    Except String (String × AuthState) :=
  if st.token = "" || st.expiresAt - now < 300 then
    match authResult with
    | .error e => .error e
    | .ok st2 => .ok (st2.token, st2)
  else .ok (st.token, st)

/-- `Client.setHeadersWithContext`: with an authenticator bound, the
Authorization header is set only when `GetToken` succeeds with a non-empty
token; otherwise (no authenticator) a non-empty static API key is used;
in every other case the header is left absent. -/
def authorizationHeader (hasAuthenticator : Bool)
    (tokenResult : Except String String) (apiKey : String) : Option String :=
  if hasAuthenticator then
    match tokenResult with
    | .ok token => if token ≠ "" then some ("Bearer " ++ token) else none
    | .error _ => none
  else if apiKey ≠ "" then some ("Bearer " ++ apiKey) else none

/-- The Authorization header of an outbound transport request when an
authenticator is bound, as a function of the credential state, the wall
clock, and the outcome an `Authenticate` call would have. -/
def requestAuthHeader (st : AuthState) (now : Int)
    (authResult : Except String AuthState) : Option String :=
  authorizationHeader true
    ((getToken st now authResult).map (fun r => r.1)) ""

/-! ## Registry diffing (registry.Registry.DetectChanges)

A scan outcome (the candidate enumeration plus the write-open probe of
each device) is a list of scanned devices; the `existed` field of the Go
`currentDevices` entries holds the probe result and is called `avail`
here.  The registry state is the printer map plus the previous
availability map.
-/

/-- One entry of the `currentDevices` map built by `DetectChanges`. -/
structure ScannedDevice where
  id : String
  path : String
  ptype : String
  avail : Bool
deriving Repr, DecidableEq

/-- Mutable registry state: printer map and previous-availability map. -/
structure RegistryState where
  printers : List PrinterInfo
  previousState : List (String × Bool)
deriving Repr, DecidableEq

/-- `registry.PrinterChanges`. -/
structure PrinterChanges where
  added : List PrinterInfo
  removed : List PrinterInfo
  changed : Bool
deriving Repr, DecidableEq

/-- Go map read with the zero-value default: a missing id was not
available. -/
def lookupBool (m : List (String × Bool)) (id : String) : Bool :=
  match m.find? (fun e => e.1 = id) with
  | some e => e.2
  | none => false

/-- Store a printer as available under its id (insert or overwrite). -/
def upsertAvailable (printers : List PrinterInfo) (dev : ScannedDevice) :
    List PrinterInfo :=
  if printers.any (fun p => p.id = dev.id) then
    printers.map (fun p =>
      if p.id = dev.id then { p with available := true } else p)
  else printers ++ [⟨dev.id, dev.ptype, dev.path, true⟩]

/-- The added-detection pass of `DetectChanges`, iterating over the
scanned devices in order: a device that is writable now but was not
available before is stored as available and recorded as added; a writable
device that was already available just has its record refreshed. -/
def detectAddPhase (prev : List (String × Bool)) :
    List ScannedDevice → List PrinterInfo →
      List PrinterInfo × List PrinterInfo
  | [], printers => (printers, [])
  | dev :: rest, printers =>
    if dev.avail && !lookupBool prev dev.id then
      let t := detectAddPhase prev rest (upsertAvailable printers dev)
      (t.1, ⟨dev.id, dev.ptype, dev.path, true⟩ :: t.2)
    else if dev.avail then detectAddPhase prev rest (upsertAvailable printers dev)
    else detectAddPhase prev rest printers

/-- The removed-detection pass of `DetectChanges`, iterating over the
previous-availability entries in order: an id that was available before
but has no writable scanned device now is marked unavailable and recorded
as removed (when it has a printer record). -/
def detectRemovePhase (scan : List ScannedDevice) :
    List (String × Bool) → List PrinterInfo →
      List PrinterInfo × List PrinterInfo
  | [], printers => (printers, [])
  | entry :: rest, printers =>
    if entry.2 && !(scan.any (fun d => d.id = entry.1 && d.avail)) then
      match printers.find? (fun p => p.id = entry.1) with
      | some p =>
        let t := detectRemovePhase scan rest
          (printers.map (fun q =>
            if q.id = entry.1 then { q with available := false } else q))
        (t.1, { p with available := false } :: t.2)
      | none => detectRemovePhase scan rest printers
    else detectRemovePhase scan rest printers

/-- `Registry.DetectChanges` for a given scan outcome: run both passes,
then overwrite the previous-availability map with the scan result. -/
def detectChanges (st : RegistryState) (scan : List ScannedDevice) :
    RegistryState × PrinterChanges :=
  let step1 := detectAddPhase st.previousState scan st.printers
  let step2 := detectRemovePhase scan st.previousState step1.1
  let changed := !step1.2.isEmpty || !step2.2.isEmpty
  (⟨step2.1, scan.map (fun d => (d.id, d.avail))⟩,
   ⟨step1.2, step2.2, changed⟩)

/-! ## Acquisition loop (agent.poll, agent.processJob)

One iteration of the acquisition loop is a pure step over the agent
statistics and the current backoff, driven by the outcome of the
`FetchNextJob` call; dispatching is abstracted by the error, if any, that
`Dispatch` returns for the job.  The Go backoff arithmetic multiplies a
`time.Duration` (integer nanoseconds, here `Nat`) by the float64 factor;
for the integer factors modelled here and durations below 2^53 ns that
multiplication is exact, so `Nat` multiplication is faithful.
-/

/-- The agent options the acquisition loop reads (`agent.Config`). -/
structure AgentConfig where
  initialBackoff : Nat
  maxBackoff : Nat
  backoffFactor : Nat
  dryRun : Bool
deriving Repr, DecidableEq

/-- `agent.DefaultConfig` restricted to those options: 1 s initial
backoff, 60 s cap, factor 2, dry-run off. -/
def defaultAgentConfig : AgentConfig :=
  ⟨1000000000, 60000000000, 2, false⟩

/-- Counters of `agent.Stats` that `poll` mutates. -/
structure AgentStats where
  jobsProcessed : Nat
  jobsFailed : Nat
  consecutiveErr : Nat
deriving Repr, DecidableEq

/-- Outcome of the `FetchNextJob` call seen by `poll`. -/
inductive FetchOutcome where
  | fetchFailed
  | empty
  | job (j : Job)
deriving Repr, DecidableEq

/-- Remote calls the acquisition loop issues, in order. -/
inductive AgentCall where
  | fetchNext
  | ack (jobId leaseId : String) (success : Bool) (errMsg : String)
deriving Repr, DecidableEq

/-- State threaded through poll iterations. -/
structure PollState where
  stats : AgentStats
  backoff : Nat
deriving Repr, DecidableEq

/-- `agent.processJob`: in dry-run mode count the job as processed and
acknowledge success without dispatching; otherwise dispatch and
acknowledge with the success flag and the dispatch error message. -/
def processJob (cfg : AgentConfig) (st : AgentStats) (j : Job)
    (dispatchErr : Option String) : AgentStats × List AgentCall :=
  if cfg.dryRun then
    ({ st with jobsProcessed := st.jobsProcessed + 1 },
     [.ack j.id j.leaseId true ""])
  else
    match dispatchErr with
    | some e =>
      ({ st with jobsFailed := st.jobsFailed + 1 },
       [.ack j.id j.leaseId false e])
    | none =>
      ({ st with jobsProcessed := st.jobsProcessed + 1 },
       [.ack j.id j.leaseId true ""])

/-- `agent.poll`: one acquisition iteration.  A fetch failure increments
the consecutive-error counter, sleeps the current backoff and then scales
it by the factor, capped; a fetch success resets counter and backoff, and
a delivered job is handed to `processJob`.  Returns the new state, the
remote calls made, and the backoff slept, if any. -/
def pollStep (cfg : AgentConfig) (st : PollState) (f : FetchOutcome)
    (dispatchErr : Job → Option String) :
    PollState × List AgentCall × Option Nat :=
  match f with
  | .fetchFailed =>
    (⟨{ st.stats with consecutiveErr := st.stats.consecutiveErr + 1 },
      min cfg.maxBackoff (st.backoff * cfg.backoffFactor)⟩,
     [.fetchNext], some st.backoff)
  | .empty =>
    (⟨{ st.stats with consecutiveErr := 0 }, cfg.initialBackoff⟩,
     [.fetchNext], none)
  | .job j =>
    let stats1 := { st.stats with consecutiveErr := 0 }
    let r := processJob cfg stats1 j (dispatchErr j)
    (⟨r.1, cfg.initialBackoff⟩, .fetchNext :: r.2, none)

/-- A run of poll iterations: final state, concatenated call trace, and
the backoffs slept, in order. -/
def pollRun (cfg : AgentConfig) (dispatchErr : Job → Option String) :
    PollState → List FetchOutcome → PollState × List AgentCall × List Nat
  | st, [] => (st, [], [])
  | st, f :: rest =>
    let r := pollStep cfg st f dispatchErr
    let t := pollRun cfg dispatchErr r.1 rest
    (t.1, r.2.1 ++ t.2.1,
     (match r.2.2 with | some b => [b] | none => []) ++ t.2.2)

/-- The poll loop starts with zeroed statistics and the backoff at its
floor (`pollLoop` initialises `currentBackoff` to `InitialBackoff`). -/
def initialPollState (cfg : AgentConfig) : PollState :=
  ⟨⟨0, 0, 0⟩, cfg.initialBackoff⟩

/-- Number of Ack calls in a trace. -/
def countAcks : List AgentCall → Nat
  | [] => 0
  | .fetchNext :: t => countAcks t
  | .ack _ _ _ _ :: t => countAcks t + 1

/-- Number of delivered jobs among fetch outcomes. -/
def countJobs : List FetchOutcome → Nat
  | [] => 0
  | .job _ :: t => countJobs t + 1
  | _ :: t => countJobs t

/-! ## Per-printer mutual exclusion (dispatcher.getMutex, Dispatch locking)

`getMutex` is modelled as lazy allocation in an id-keyed map whose values
are allocation indices (distinct indices stand for distinct mutexes); the
map accesses are serialized by the guarding RWMutex in the source, so a
call sequence is a list.  The locking regime of concurrent `Dispatch`
calls is an interleaving semantics: each thread wants the lock for its
resolved printer id, enters the driver call only when no other thread
holds that id, and releases on completion; a schedule picks which thread
moves at each step.
-/

/-- State of the dispatcher's lazily populated mutex map. -/
structure MutexMapState where
  entries : List (String × Nat)
  nextAlloc : Nat
deriving Repr, DecidableEq

/-- `Dispatcher.getMutex`: return the mutex already mapped to the id, or
insert a fresh one (double-checked under the write lock in the source;
calls are serialized by the map guard). -/
def getMutex (st : MutexMapState) (id : String) : MutexMapState × Nat :=
  match st.entries.find? (fun e => e.1 = id) with
  | some e => (st, e.2)
  | none => (⟨st.entries ++ [(id, st.nextAlloc)], st.nextAlloc + 1⟩, st.nextAlloc)

/-- The mutex currently mapped to a printer id, if any. -/
def mutexLookup (st : MutexMapState) (id : String) : Option Nat :=
  (st.entries.find? (fun e => e.1 = id)).map (fun e => e.2)

/-- A serialized sequence of `getMutex` calls and the mutexes returned. -/
def getMutexRun : MutexMapState → List String → MutexMapState × List Nat
  | st, [] => (st, [])
  | st, id :: rest =>
    let r := getMutex st id
    let t := getMutexRun r.1 rest
    (t.1, r.2 :: t.2)

/-- The mutexes handed out for a call sequence, from an empty map. -/
def mutexResults (calls : List String) : List Nat :=
  (getMutexRun ⟨[], 0⟩ calls).2

/-- Phase of one `Dispatch` call with its resolved printer id: waiting on
the per-printer mutex, inside the driver call, or finished. -/
inductive TPhase where
  | wantLock (id : String)
  | inDriver (id : String)
  | done
deriving Repr, DecidableEq

/-- Interleaving state: per-thread phases and the set of held printer
ids. -/
structure SysState where
  threads : List TPhase
  held : List String
deriving Repr, DecidableEq

/-- One scheduler step: the chosen thread acquires its printer's mutex
(only when free), or finishes its driver call and releases; anything else
is a stutter. -/
def sysStep (s : SysState) (tid : Nat) : SysState :=
  match s.threads.get? tid with
  | some (.wantLock id) =>
    if id ∈ s.held then s
    else ⟨s.threads.set tid (.inDriver id), id :: s.held⟩
  | some (.inDriver id) => ⟨s.threads.set tid .done, s.held.erase id⟩
  | _ => s

/-- Run a schedule from a state. -/
def sysRun (s : SysState) : List Nat → SysState
  | [] => s
  | tid :: rest => sysRun (sysStep s tid) rest

/-- Initial state for one `Dispatch` call per listed printer id: every
thread is about to acquire its printer's mutex, no mutex is held. -/
def sysInit (ids : List String) : SysState :=
  ⟨ids.map .wantLock, []⟩

/-- Whether a thread phase is inside the driver call for the given
printer id. -/
def isDriverOf (id : String) : TPhase → Bool
  | .inDriver x => x = id
  | _ => false

/-- Two phases clash when both are inside the driver call for the same
printer id. -/
def sameDriverClash : TPhase → TPhase → Bool
  | .inDriver x, .inDriver y => x = y
  | _, _ => false

/-- No later thread clashes with the given phase. -/
def noClash (a : TPhase) : List TPhase → Bool
  | [] => true
  | b :: t => !sameDriverClash a b && noClash a t

/-- No two threads are inside the driver call for the same printer id. -/
def exclusionOK : List TPhase → Bool
  | [] => true
  | a :: t => noClash a t && exclusionOK t

/-! ## Event-stream reconnection (api.MercureClient.SubscribeWithReconnect) -/

/-- One completed `Subscribe` session, ended by a disconnection: how many
events it delivered and the reason it returned.  The reconnect loop never
reads either field. -/
structure SseSession where
  events : Nat
  errMsg : String
deriving Repr, DecidableEq

/-- The waits of `SubscribeWithReconnect` between sessions: after every
disconnection it sleeps the current backoff, then doubles it with a 60 s
cap; the backoff is never reset inside the loop. -/
def reconnectWaits (backoff : Nat) : List SseSession → List Nat
  | [] => []
  | _ :: rest => backoff :: reconnectWaits (min 60 (backoff * 2)) rest

/-! ## Concrete fixtures used by counterexamples and witnesses -/

/-- A registry with one available receipt printer and one available label
printer (ids and device paths as produced by `Registry.Detect`). -/
def sampleRegistry : List PrinterInfo :=
  [⟨"epson-receipt", "receipt", "/dev/usb/epson_tmt20iii", true⟩,
   ⟨"brother-label", "label", "/dev/usb/brother_ql800", true⟩]

/-- A job of kind `put_aside` with no printer code hint. -/
def putAsideJob : Job :=
  ⟨"J1", "L1", "put_aside", "", "", ""⟩

/-! ## Theorems -/

/-- C1 (counterexample): the spec also routes the kind `put_aside` to the
receipt class, but `put_aside` is not a dispatcher-level job kind — a job
of kind `put_aside` without a printer code hint fails resolution with an
unknown-kind error even though an available receipt printer exists, so it
is not resolved through the receipt class. -/
theorem claim1_routing_counterexample :
    resolvePrinter sampleRegistry putAsideJob =
      .error "cannot determine printer type for job type: put_aside" ∧
    registryGetByType sampleRegistry printerTypeReceipt =
      .ok ⟨"epson-receipt", "receipt", "/dev/usb/epson_tmt20iii", true⟩ ∧
    resolvePrinter sampleRegistry putAsideJob ≠
      registryGetByType sampleRegistry printerTypeReceipt := by
  refine ⟨rfl, rfl, ?_⟩
  intro h
  exact Except.noConfusion h

/-- C1 (amended): printer resolution maps the kinds `receipt` and
`open_drawer` to the printer class `receipt` and the kinds `label` and
`sticker_image` to the class `label`; a non-empty printer code hint is an
exact lookup by that code and class routing is never consulted; the kind
`put_aside` is not a dispatcher job kind (put-aside tickets travel as
`receipt` jobs whose payload `type` is `put_aside`) and fails resolution
with an unknown-kind error when no code hint is present. -/
theorem claim1_routing (printers : List PrinterInfo) (job : Job) :
    (job.printerCode ≠ "" →
      resolvePrinter printers job = registryGet printers job.printerCode) ∧
    (job.printerCode = "" →
      (job.jtype = jobTypeReceipt ∨ job.jtype = jobTypeOpenDrawer) →
      resolvePrinter printers job =
        registryGetByType printers printerTypeReceipt) ∧
    (job.printerCode = "" →
      (job.jtype = jobTypeLabel ∨ job.jtype = jobTypeStickerImage) →
      resolvePrinter printers job =
        registryGetByType printers printerTypeLabel) ∧
    (job.printerCode = "" → job.jtype = "put_aside" →
      resolvePrinter printers job =
        .error "cannot determine printer type for job type: put_aside") := by
  refine ⟨?_, ?_, ?_, ?_⟩
  · intro h
    simp [resolvePrinter, h]
  · rintro h (ht | ht) <;>
      simp [resolvePrinter, h, ht, jobTypeReceipt, jobTypeOpenDrawer]
  · rintro h (ht | ht) <;>
      simp [resolvePrinter, h, ht, jobTypeLabel, jobTypeStickerImage,
        jobTypeReceipt, jobTypeOpenDrawer]
  · intro h ht
    simp [resolvePrinter, h, ht, jobTypeLabel, jobTypeStickerImage,
      jobTypeReceipt, jobTypeOpenDrawer]

/-- C1 (witness): the amended routing at concrete jobs — a code hint, an
`open_drawer` job, a `sticker_image` job, and a code-less `put_aside`
job. -/
theorem claim1_routing_witness :
    resolvePrinter sampleRegistry ⟨"J2", "L2", "receipt", "brother-label", "", ""⟩ =
      registryGet sampleRegistry "brother-label" ∧
    resolvePrinter sampleRegistry ⟨"J3", "L3", "open_drawer", "", "", ""⟩ =
      registryGetByType sampleRegistry printerTypeReceipt ∧
    resolvePrinter sampleRegistry ⟨"J4", "L4", "sticker_image", "", "", ""⟩ =
      registryGetByType sampleRegistry printerTypeLabel ∧
    resolvePrinter sampleRegistry putAsideJob =
      .error "cannot determine printer type for job type: put_aside" :=
  ⟨(claim1_routing sampleRegistry ⟨"J2", "L2", "receipt", "brother-label", "", ""⟩).1
      (by decide),
   (claim1_routing sampleRegistry ⟨"J3", "L3", "open_drawer", "", "", ""⟩).2.1
      rfl (Or.inr rfl),
   (claim1_routing sampleRegistry ⟨"J4", "L4", "sticker_image", "", "", ""⟩).2.2.1
      rfl (Or.inr rfl),
   (claim1_routing sampleRegistry putAsideJob).2.2.2 rfl rfl⟩

/-- C2 (counterexample): after a successful initial authentication stored
the non-empty token `tok-initial`, a request built while the token is
within 5 minutes of expiry and the refresh attempt fails is sent with no
Authorization header at all (`setHeadersWithContext` skips the header when
`GetToken` errors). -/
theorem claim2_bearer_counterexample :
    (AuthState.mk "tok-initial" 1000).token ≠ "" ∧
    requestAuthHeader ⟨"tok-initial", 1000⟩ 800 (.error "connection refused") =
      none := by
  exact ⟨by decide, rfl⟩

/-- C2 (amended): an outbound request carries the non-empty bearer
credential whenever `GetToken` succeeds with a non-empty token — in
particular whenever the stored token is non-empty with at least 5 minutes
of validity left, in which case no refresh is consulted; but when
`GetToken` fails (the token was absent or near expiry and the refresh
attempt failed), the request is sent with the Authorization header
absent. -/
theorem claim2_bearer (st : AuthState) (now : Int)
    (ar : Except String AuthState) :
    (st.token ≠ "" → 300 ≤ st.expiresAt - now →
      getToken st now ar = .ok (st.token, st) ∧
      requestAuthHeader st now ar = some ("Bearer " ++ st.token)) ∧
    (∀ t st2, getToken st now ar = .ok (t, st2) → t ≠ "" →
      requestAuthHeader st now ar = some ("Bearer " ++ t)) ∧
    (∀ e, getToken st now ar = .error e →
      requestAuthHeader st now ar = none) := by
  refine ⟨?_, ?_, ?_⟩
  · intro h1 h2
    have hg : getToken st now ar = .ok (st.token, st) := by
      simp [getToken, h1, not_lt.mpr h2]
    exact ⟨hg, by simp [requestAuthHeader, authorizationHeader, Except.map, hg, h1]⟩
  · intro t st2 hok ht
    simp [requestAuthHeader, authorizationHeader, Except.map, hok, ht]
  · intro e he
    simp [requestAuthHeader, authorizationHeader, Except.map, he]

/-- C2 (witness): the amended statement at concrete credential states —
a fresh token is attached unchanged, a successful refresh installs the new
token, and a failed refresh sends the request without the header. -/
theorem claim2_bearer_witness :
    getToken ⟨"tok", 10000⟩ 100 (.error "x") = .ok ("tok", ⟨"tok", 10000⟩) ∧
    requestAuthHeader ⟨"tok", 10000⟩ 100 (.error "x") =
      some ("Bearer " ++ "tok") ∧
    requestAuthHeader ⟨"tok", 9000⟩ 8900 (.ok ⟨"fresh", 99999⟩) =
      some ("Bearer " ++ "fresh") ∧
    requestAuthHeader ⟨"", 0⟩ 0 (.error "boom") = none :=
  ⟨((claim2_bearer ⟨"tok", 10000⟩ 100 (.error "x")).1 (by decide) (by decide)).1,
   ((claim2_bearer ⟨"tok", 10000⟩ 100 (.error "x")).1 (by decide) (by decide)).2,
   (claim2_bearer ⟨"tok", 9000⟩ 8900 (.ok ⟨"fresh", 99999⟩)).2.1
     "fresh" ⟨"fresh", 99999⟩ rfl (by decide),
   (claim2_bearer ⟨"", 0⟩ 0 (.error "boom")).2.2 "boom" rfl⟩

theorem countAcks_append (l1 l2 : List AgentCall) :
    countAcks (l1 ++ l2) = countAcks l1 + countAcks l2 := by
  induction l1 with
  | nil => simp [countAcks]
  | cons a t ih =>
    cases a with
    | fetchNext => simp [countAcks, ih]
    | ack w x y z => simp [countAcks, ih]; omega

/-- C3: every acquisition iteration issues exactly one FetchNext, and it
issues exactly one Ack exactly when the fetch delivered a job — a success
Ack when dry-run is enabled or dispatch succeeded, else a failure Ack
carrying the dispatch error message — and that Ack lies in the same
iteration's trace, before the next iteration's FetchNext; over any run,
the number of Acks equals the number of delivered jobs. -/
theorem claim3_ack_once (cfg : AgentConfig) (dispatchErr : Job → Option String) :
    (∀ (st : PollState) (f : FetchOutcome),
      (pollStep cfg st f dispatchErr).2.1 =
        .fetchNext ::
          (match f with
           | .job j =>
             [if cfg.dryRun then AgentCall.ack j.id j.leaseId true ""
              else
                match dispatchErr j with
                | some e => AgentCall.ack j.id j.leaseId false e
                | none => AgentCall.ack j.id j.leaseId true ""]
           | _ => [])) ∧
    (∀ (st : PollState) (outcomes : List FetchOutcome),
      countAcks (pollRun cfg dispatchErr st outcomes).2.1 =
        countJobs outcomes) := by
  constructor
  · intro st f
    cases f with
    | fetchFailed => rfl
    | empty => rfl
    | job j =>
      by_cases hd : cfg.dryRun
      · simp [pollStep, processJob, hd]
      · cases he : dispatchErr j <;> simp [pollStep, processJob, hd, he]
  · intro st outcomes
    induction outcomes generalizing st with
    | nil => rfl
    | cons f rest ih =>
      cases f with
      | fetchFailed =>
        simp [pollRun, pollStep, countAcks_append, countAcks, countJobs, ih]
      | empty =>
        simp [pollRun, pollStep, countAcks_append, countAcks, countJobs, ih]
      | job j =>
        by_cases hd : cfg.dryRun
        · simp [pollRun, pollStep, processJob, hd, countAcks_append,
            countAcks, countJobs, ih]
        · cases he : dispatchErr j <;>
            simp [pollRun, pollStep, processJob, hd, he, countAcks_append,
              countAcks, countJobs, ih]

theorem min_double_pow (j : Nat) :
    min 60 (min 60 (2 ^ j) * 2) = min 60 (2 ^ (j + 1)) := by
  rcases le_total (2 ^ j) 60 with h | h
  · rw [min_eq_right h, pow_succ]
  · rw [min_eq_left h, min_eq_left (by omega : (60 : Nat) ≤ 60 * 2),
      min_eq_left (le_trans h (Nat.pow_le_pow_right (by omega) (Nat.le_succ j)))]

theorem reconnectWaits_pow (sessions : List SseSession) :
    ∀ j, reconnectWaits (min 60 (2 ^ j)) sessions =
      (List.range sessions.length).map (fun n => min 60 (2 ^ (j + n))) := by
  induction sessions with
  | nil => intro j; simp [reconnectWaits]
  | cons s rest ih =>
    intro j
    simp only [reconnectWaits, List.length_cons]
    rw [min_double_pow, ih (j + 1), List.range_succ_eq_map, List.map_cons,
      List.map_map]
    have hf : (fun n => min 60 (2 ^ (j + n))) ∘ Nat.succ =
        fun n => min 60 (2 ^ (j + 1 + n)) := by
      funext n
      have hx : j + Nat.succ n = j + 1 + n := by omega
      simp [Function.comp, hx]
    rw [hf]
    simp

/-- C10: within one `SubscribeWithReconnect` call the wait before the n-th
reconnection attempt is `min(60 s, 2^(n-1) × 1 s)`, counted over all
disconnections since the call began — the wait sequence is the same for
every list of sessions, including sessions that connected successfully and
delivered events, so the backoff is never reset to its 1 s floor. -/
theorem claim10_reconnect_backoff (sessions : List SseSession) :
    reconnectWaits 1 sessions =
      (List.range sessions.length).map (fun n => min 60 (2 ^ n)) := by
  have h := reconnectWaits_pow sessions 0
  simpa using h

theorem backoff_step_closed (init mx fac : Nat) (hf : 1 ≤ fac) (j : Nat) :
    min mx (min mx (init * fac ^ j) * fac) = min mx (init * fac ^ (j + 1)) := by
  rcases le_total (init * fac ^ j) mx with h | h
  · rw [min_eq_right h, pow_succ, mul_assoc]
  · have h2 : mx ≤ mx * fac := Nat.le_mul_of_pos_right mx (by omega)
    have h3 : mx ≤ init * fac ^ (j + 1) := by
      refine le_trans h ?_
      rw [pow_succ, ← mul_assoc]
      exact Nat.le_mul_of_pos_right _ (by omega)
    rw [min_eq_left h, min_eq_left h2, min_eq_left h3]

theorem pollRun_failures (cfg : AgentConfig) (d : Job → Option String)
    (hf : 1 ≤ cfg.backoffFactor) :
    ∀ (k j : Nat) (stats : AgentStats),
      pollRun cfg d
          ⟨stats, min cfg.maxBackoff
            (cfg.initialBackoff * cfg.backoffFactor ^ j)⟩
          (List.replicate k .fetchFailed) =
        (⟨{ stats with consecutiveErr := stats.consecutiveErr + k },
          min cfg.maxBackoff
            (cfg.initialBackoff * cfg.backoffFactor ^ (j + k))⟩,
         List.replicate k .fetchNext,
         (List.range k).map (fun i =>
           min cfg.maxBackoff (cfg.initialBackoff * cfg.backoffFactor ^ (j + i)))) := by
  intro k
  induction k with
  | zero => intro j stats; simp [pollRun]
  | succ k ih =>
    intro j stats
    rw [List.replicate_succ]
    simp only [pollRun, pollStep]
    rw [backoff_step_closed cfg.initialBackoff cfg.maxBackoff
      cfg.backoffFactor hf j]
    rw [ih (j + 1) { stats with consecutiveErr := stats.consecutiveErr + 1 }]
    refine congrArg₂ Prod.mk ?_ (congrArg₂ Prod.mk ?_ ?_)
    · have h1 : stats.consecutiveErr + 1 + k = stats.consecutiveErr + (k + 1) := by
        omega
      have h2 : j + 1 + k = j + (k + 1) := by omega
      simp only [h1, h2]
    · simp [List.replicate_succ]
    · rw [List.range_succ_eq_map, List.map_cons, List.map_map]
      have hfn : (fun i => min cfg.maxBackoff
          (cfg.initialBackoff * cfg.backoffFactor ^ (j + i))) ∘ Nat.succ =
          fun i => min cfg.maxBackoff
            (cfg.initialBackoff * cfg.backoffFactor ^ (j + 1 + i)) := by
        funext i
        have hy : j + Nat.succ i = j + 1 + i := by omega
        simp [Function.comp, hy]
      rw [hfn]
      simp

/-- C7: starting from a fresh acquisition-loop state, the backoff slept on
the k-th of k consecutive FetchNext failures is
`min(maxBackoff, initialBackoff × factor^(k-1))` (the whole sleep sequence
follows that closed form), the consecutive-error counter reaches k, and a
successful FetchNext — empty or with a job — resets the backoff to
`initialBackoff` and the counter to 0. -/
theorem claim7_poll_backoff (cfg : AgentConfig) (d : Job → Option String)
    (k : Nat) (hinit : cfg.initialBackoff ≤ cfg.maxBackoff)
    (hf : 1 ≤ cfg.backoffFactor) :
    ((pollRun cfg d (initialPollState cfg)
        (List.replicate k .fetchFailed)).2.2 =
      (List.range k).map (fun i =>
        min cfg.maxBackoff (cfg.initialBackoff * cfg.backoffFactor ^ i))) ∧
    (1 ≤ k →
      ((pollRun cfg d (initialPollState cfg)
          (List.replicate k .fetchFailed)).2.2)[k - 1]? =
        some (min cfg.maxBackoff
          (cfg.initialBackoff * cfg.backoffFactor ^ (k - 1)))) ∧
    ((pollRun cfg d (initialPollState cfg)
        (List.replicate k .fetchFailed)).1.stats.consecutiveErr = k) ∧
    (∀ (st : PollState) (j : Job),
      (pollStep cfg st .empty d).1.backoff = cfg.initialBackoff ∧
      (pollStep cfg st .empty d).1.stats.consecutiveErr = 0 ∧
      (pollStep cfg st (.job j) d).1.backoff = cfg.initialBackoff ∧
      (pollStep cfg st (.job j) d).1.stats.consecutiveErr = 0) := by
  have hrun := pollRun_failures cfg d hf k 0 ⟨0, 0, 0⟩
  have hstart : initialPollState cfg =
      ⟨⟨0, 0, 0⟩, min cfg.maxBackoff
        (cfg.initialBackoff * cfg.backoffFactor ^ 0)⟩ := by
    simp [initialPollState, min_eq_right hinit]
  refine ⟨?_, ?_, ?_, ?_⟩
  · rw [hstart, hrun]
    simp
  · intro hk
    rw [hstart, hrun]
    simp [List.getElem?_map, List.getElem?_range, Nat.sub_lt hk Nat.one_pos]
  · rw [hstart, hrun]
    simp
  · intro st j
    refine ⟨rfl, rfl, ?_, ?_⟩
    · rfl
    · by_cases hd : cfg.dryRun
      · simp [pollStep, processJob, hd]
      · cases he : d j <;> simp [pollStep, processJob, hd, he]

/-- C7 (witness): the backoff schedule at the default configuration over
seven consecutive failures — 1 s, 2 s, 4 s, 8 s, 16 s, 32 s, then capped
at 60 s — with the counter reaching 7. -/
theorem claim7_poll_backoff_witness :
    ((pollRun defaultAgentConfig (fun _ => none)
        (initialPollState defaultAgentConfig)
        (List.replicate 7 .fetchFailed)).2.2 =
      (List.range 7).map (fun i =>
        min 60000000000 (1000000000 * 2 ^ i))) ∧
    ((pollRun defaultAgentConfig (fun _ => none)
        (initialPollState defaultAgentConfig)
        (List.replicate 7 .fetchFailed)).1.stats.consecutiveErr = 7) :=
  ⟨(claim7_poll_backoff defaultAgentConfig (fun _ => none) 7
      (by decide) (by decide)).1,
   (claim7_poll_backoff defaultAgentConfig (fun _ => none) 7
      (by decide) (by decide)).2.2.1⟩

theorem range_map_shift (m : Nat) (f : Nat → Nat) :
    (List.range (m + 1)).map f =
      f 0 :: (List.range m).map (fun k => f (k + 1)) := by
  rw [List.range_succ_eq_map, List.map_cons, List.map_map]
  have hc : f ∘ Nat.succ = fun k => f (k + 1) := by
    funext k
    simp [Function.comp]
  rw [hc]

theorem delays_cons (cfg : DispatcherConfig) (attempt r : Nat) (hr : 1 ≤ r) :
    retryDelay cfg attempt ::
      (List.range (r - 1)).map (fun k => retryDelay cfg (attempt + 1 + k)) =
    (List.range r).map (fun k => retryDelay cfg (attempt + k)) := by
  conv_rhs => rw [show r = r - 1 + 1 by omega]
  rw [range_map_shift (r - 1) (fun k => retryDelay cfg (attempt + k))]
  have hc : (fun k => retryDelay cfg (attempt + (k + 1))) =
      fun k => retryDelay cfg (attempt + 1 + k) := by
    funext k
    have hy : attempt + (k + 1) = attempt + 1 + k := by omega
    rw [hy]
  simp only [Nat.add_zero]
  rw [hc]

theorem dispatchGo_allFail (cfg : DispatcherConfig)
    (driver : Nat → Option String) (msg : Nat → String) :
    ∀ (r attempt : Nat), 1 ≤ r →
      (∀ i, attempt ≤ i → i < attempt + r →
        driver i = some (msg i) ∧ isNonRetryableError (msg i) = false) →
      dispatchGo cfg driver attempt r =
        ⟨.exhausted (some (msg (attempt + r - 1))), r,
         (List.range (r - 1)).map (fun k => retryDelay cfg (attempt + k))⟩ := by
  intro r
  induction r with
  | zero => intro attempt h1; omega
  | succ r ih =>
    intro attempt _ h
    have hd := h attempt (le_refl _) (by omega)
    rcases Nat.eq_zero_or_pos r with hr | hr
    · subst hr
      simp [dispatchGo, hd.1, hd.2]
    · have ht := ih (attempt + 1) hr (fun i h1 h2 => h i (by omega) (by omega))
      simp only [dispatchGo, hd.1, hd.2, Bool.false_eq_true, if_false,
        if_neg (by omega : ¬r = 0)]
      rw [ht]
      have hx : attempt + 1 + r - 1 = attempt + (r + 1) - 1 := by omega
      have hD := delays_cons cfg attempt r hr
      simp [DispatchTrace.mk.injEq, hx, hD]

theorem dispatchGo_stops (cfg : DispatcherConfig)
    (driver : Nat → Option String) (msg : Nat → String) :
    ∀ (k r attempt : Nat), 1 ≤ k → k ≤ r →
      (∀ i, attempt ≤ i → i < attempt + k - 1 →
        driver i = some (msg i) ∧ isNonRetryableError (msg i) = false) →
      driver (attempt + k - 1) = some (msg (attempt + k - 1)) →
      isNonRetryableError (msg (attempt + k - 1)) = true →
      dispatchGo cfg driver attempt r =
        ⟨.nonRetryable (msg (attempt + k - 1)), k,
         (List.range (k - 1)).map (fun j => retryDelay cfg (attempt + j))⟩ := by
  intro k
  induction k with
  | zero => intro r attempt h1; omega
  | succ k ih =>
    intro r attempt _ hkr hpre hk hnr
    rcases Nat.eq_zero_or_pos k with hk0 | hk0
    · subst hk0
      obtain ⟨r1, rfl⟩ : ∃ r1, r = r1 + 1 := ⟨r - 1, by omega⟩
      have hx : attempt + 1 - 1 = attempt := by omega
      rw [hx] at hk hnr
      simp [dispatchGo, hk, hnr]
    · obtain ⟨r1, rfl⟩ : ∃ r1, r = r1 + 1 := ⟨r - 1, by omega⟩
      have hd := hpre attempt (le_refl _) (by omega)
      have hx : attempt + 1 + k - 1 = attempt + (k + 1) - 1 := by omega
      have ht := ih r1 (attempt + 1) hk0 (by omega)
        (fun i h1 h2 => hpre i (by omega) (by omega))
        (by rw [hx]; exact hk) (by rw [hx]; exact hnr)
      simp only [dispatchGo, hd.1, hd.2, Bool.false_eq_true, if_false,
        if_neg (by omega : ¬r1 = 0)]
      rw [ht, hx]
      have hD := delays_cons cfg attempt k hk0
      simp [DispatchTrace.mk.injEq, hD]

/-- C5: once the printer is resolved and available, a job whose driver
attempts all fail with retryable messages (containing none of "parsing",
"unknown job type", "no image data") gets exactly `MaxRetries` driver
invocations separated by delays `base × 2^(attempt-1)` and an error
wrapping the last driver error; a non-retryable failure at attempt k stops
immediately with that error after exactly k invocations.  At the defaults
(3 attempts, 2 s base) the delays are 2 s then 4 s. -/
theorem claim5_dispatch_retry (cfg : DispatcherConfig)
    (printers : List PrinterInfo) (job : Job) (driver : Nat → Option String)
    (msg : Nat → String) (p : PrinterInfo)
    (hres : resolvePrinter printers job = .ok p) (hav : p.available = true)
    (hmr : 1 ≤ cfg.maxRetries) :
    ((∀ i, 1 ≤ i → i ≤ cfg.maxRetries →
        driver i = some (msg i) ∧ isNonRetryableError (msg i) = false) →
      dispatchRun cfg printers job driver =
        ⟨.exhausted (some (msg cfg.maxRetries)), cfg.maxRetries,
         (List.range (cfg.maxRetries - 1)).map
           (fun k => retryDelay cfg (1 + k))⟩) ∧
    (∀ k, 1 ≤ k → k ≤ cfg.maxRetries →
      (∀ i, 1 ≤ i → i < k →
        driver i = some (msg i) ∧ isNonRetryableError (msg i) = false) →
      driver k = some (msg k) → isNonRetryableError (msg k) = true →
      dispatchRun cfg printers job driver =
        ⟨.nonRetryable (msg k), k,
         (List.range (k - 1)).map (fun j => retryDelay cfg (1 + j))⟩) ∧
    (retryDelay defaultDispatcherConfig 1 = 2000000000 ∧
     retryDelay defaultDispatcherConfig 2 = 4000000000 ∧
     defaultDispatcherConfig.maxRetries = 3) := by
  have hrun : dispatchRun cfg printers job driver =
      dispatchGo cfg driver 1 cfg.maxRetries := by
    simp [dispatchRun, hres, hav]
  refine ⟨?_, ?_, by decide, by decide, rfl⟩
  · intro hall
    rw [hrun]
    have h := dispatchGo_allFail cfg driver msg cfg.maxRetries 1 hmr
      (fun i h1 h2 => hall i h1 (by omega))
    rw [h]
    have hx : 1 + cfg.maxRetries - 1 = cfg.maxRetries := by omega
    rw [hx]
  · intro k hk1 hk2 hpre hdk hnr
    rw [hrun]
    have hx : 1 + k - 1 = k := by omega
    have h := dispatchGo_stops cfg driver msg k cfg.maxRetries 1 hk1 hk2
      (fun i h1 h2 => hpre i h1 (by omega)) (by rw [hx]; exact hdk)
      (by rw [hx]; exact hnr)
    rw [h, hx]

/-- C5 (witness): at the default configuration with the sample registry —
a receipt job whose driver always fails retryably gets 3 attempts with
2 s and 4 s delays and the wrapped last error; one whose first attempt
fails with a parsing error stops after 1 attempt. -/
theorem claim5_dispatch_retry_witness :
    dispatchRun defaultDispatcherConfig sampleRegistry
        ⟨"J5", "L5", "receipt", "", "", ""⟩ (fun _ => some "write failed") =
      ⟨.exhausted (some "write failed"), 3, [2000000000, 4000000000]⟩ ∧
    dispatchRun defaultDispatcherConfig sampleRegistry
        ⟨"J6", "L6", "receipt", "", "", ""⟩
        (fun _ => some "parsing receipt payload: unexpected end") =
      ⟨.nonRetryable "parsing receipt payload: unexpected end", 1, []⟩ := by
  constructor
  · rw [(claim5_dispatch_retry defaultDispatcherConfig sampleRegistry
      ⟨"J5", "L5", "receipt", "", "", ""⟩ (fun _ => some "write failed")
      (fun _ => "write failed")
      ⟨"epson-receipt", "receipt", "/dev/usb/epson_tmt20iii", true⟩
      rfl rfl (by decide)).1 (fun i h1 h2 => ⟨rfl, by decide⟩)]
    rfl
  · rw [(claim5_dispatch_retry defaultDispatcherConfig sampleRegistry
      ⟨"J6", "L6", "receipt", "", "", ""⟩
      (fun _ => some "parsing receipt payload: unexpected end")
      (fun _ => "parsing receipt payload: unexpected end")
      ⟨"epson-receipt", "receipt", "/dev/usb/epson_tmt20iii", true⟩
      rfl rfl (by decide)).2.1 1 (by decide) (by decide)
      (fun i h1 h2 => absurd h1 (by omega)) rfl (by decide)]
    rfl

theorem doWithRetryGo_step_canceled (net : Nat → HttpAttempt)
    (canceled : Nat → Bool) (attempt r : Nat) (le : Option String)
    (hat : attempt ≠ 0) (hc1 : canceled attempt = true) :
    doWithRetryGo net canceled attempt (r + 1) le = ⟨.canceled, 0, []⟩ := by
  simp [doWithRetryGo, hat, hc1]

theorem doWithRetryGo_step_netErr (net : Nat → HttpAttempt)
    (canceled : Nat → Bool) (attempt r : Nat) (le : Option String) (m : String)
    (hat : attempt ≠ 0) (hc1 : canceled attempt = false)
    (hn : net attempt = .netErr m) :
    doWithRetryGo net canceled attempt (r + 1) le =
      ⟨(doWithRetryGo net canceled (attempt + 1) r (some m)).outcome,
       (doWithRetryGo net canceled (attempt + 1) r (some m)).attempts + 1,
       2 ^ (attempt - 1) ::
         (doWithRetryGo net canceled (attempt + 1) r (some m)).backoffs⟩ := by
  simp [doWithRetryGo, hat, hc1, hn]

theorem doWithRetryGo_step_resp5 (net : Nat → HttpAttempt)
    (canceled : Nat → Bool) (attempt r : Nat) (le : Option String) (s : Nat)
    (hat : attempt ≠ 0) (hc1 : canceled attempt = false)
    (hn : net attempt = .resp s) (hs : 500 ≤ s) :
    doWithRetryGo net canceled attempt (r + 1) le =
      ⟨(doWithRetryGo net canceled (attempt + 1) r
          (some ("server error: " ++ toString s))).outcome,
       (doWithRetryGo net canceled (attempt + 1) r
          (some ("server error: " ++ toString s))).attempts + 1,
       2 ^ (attempt - 1) ::
         (doWithRetryGo net canceled (attempt + 1) r
           (some ("server error: " ++ toString s))).backoffs⟩ := by
  simp [doWithRetryGo, hat, hc1, hn, hs]

theorem doWithRetryGo_step_respOK (net : Nat → HttpAttempt)
    (canceled : Nat → Bool) (attempt r : Nat) (le : Option String) (s : Nat)
    (hat : attempt ≠ 0) (hc1 : canceled attempt = false)
    (hn : net attempt = .resp s) (hs : s < 500) :
    doWithRetryGo net canceled attempt (r + 1) le =
      ⟨.response s, 1, [2 ^ (attempt - 1)]⟩ := by
  simp [doWithRetryGo, hat, hc1, hn, Nat.not_le.mpr hs]

theorem doWithRetryGo_zero_netErr (net : Nat → HttpAttempt)
    (canceled : Nat → Bool) (r : Nat) (le : Option String) (m : String)
    (hn : net 0 = .netErr m) :
    doWithRetryGo net canceled 0 (r + 1) le =
      ⟨(doWithRetryGo net canceled 1 r (some m)).outcome,
       (doWithRetryGo net canceled 1 r (some m)).attempts + 1,
       (doWithRetryGo net canceled 1 r (some m)).backoffs⟩ := by
  simp [doWithRetryGo, hn]

theorem doWithRetryGo_zero_resp5 (net : Nat → HttpAttempt)
    (canceled : Nat → Bool) (r : Nat) (le : Option String) (s : Nat)
    (hn : net 0 = .resp s) (hs : 500 ≤ s) :
    doWithRetryGo net canceled 0 (r + 1) le =
      ⟨(doWithRetryGo net canceled 1 r
          (some ("server error: " ++ toString s))).outcome,
       (doWithRetryGo net canceled 1 r
          (some ("server error: " ++ toString s))).attempts + 1,
       (doWithRetryGo net canceled 1 r
         (some ("server error: " ++ toString s))).backoffs⟩ := by
  simp [doWithRetryGo, hn, hs]

theorem doWithRetryGo_zero_respOK (net : Nat → HttpAttempt)
    (canceled : Nat → Bool) (r : Nat) (le : Option String) (s : Nat)
    (hn : net 0 = .resp s) (hs : s < 500) :
    doWithRetryGo net canceled 0 (r + 1) le = ⟨.response s, 1, []⟩ := by
  simp [doWithRetryGo, hn, Nat.not_le.mpr hs]

theorem doWithRetryGo_attempts_le (net : Nat → HttpAttempt)
    (canceled : Nat → Bool) :
    ∀ (r attempt : Nat) (le : Option String),
      (doWithRetryGo net canceled attempt r le).attempts ≤ r := by
  intro r
  induction r with
  | zero => intro attempt le; simp [doWithRetryGo]
  | succ r ih =>
    intro attempt le
    by_cases hat : attempt = 0
    · subst hat
      cases hn : net 0 with
      | netErr m =>
        rw [doWithRetryGo_zero_netErr net canceled r le m hn]
        simpa using Nat.succ_le_succ (ih 1 (some m))
      | resp s =>
        rcases Nat.lt_or_ge s 500 with hs | hs
        · rw [doWithRetryGo_zero_respOK net canceled r le s hn hs]
          simp
        · rw [doWithRetryGo_zero_resp5 net canceled r le s hn hs]
          simpa using Nat.succ_le_succ (ih 1 _)
    · cases hc1 : canceled attempt with
      | true =>
        rw [doWithRetryGo_step_canceled net canceled attempt r le hat hc1]
        simp
      | false =>
        cases hn : net attempt with
        | netErr m =>
          rw [doWithRetryGo_step_netErr net canceled attempt r le m hat hc1 hn]
          simpa using Nat.succ_le_succ (ih (attempt + 1) (some m))
        | resp s =>
          rcases Nat.lt_or_ge s 500 with hs | hs
          · rw [doWithRetryGo_step_respOK net canceled attempt r le s hat hc1
              hn hs]
            simp
          · rw [doWithRetryGo_step_resp5 net canceled attempt r le s hat hc1
              hn hs]
            simpa using Nat.succ_le_succ (ih (attempt + 1) _)

theorem backoffs_cons (attempt m : Nat) :
    (2 : Nat) ^ (attempt - 1) ::
      (List.range m).map (fun k => 2 ^ (attempt + 1 + k - 1)) =
    (List.range (m + 1)).map (fun k => 2 ^ (attempt + k - 1)) := by
  rw [range_map_shift m (fun k => 2 ^ (attempt + k - 1))]
  have hc : (fun k => (2 : Nat) ^ (attempt + (k + 1) - 1)) =
      fun k => 2 ^ (attempt + 1 + k - 1) := by
    funext k
    have hy : attempt + (k + 1) - 1 = attempt + 1 + k - 1 := by omega
    rw [hy]
  simp only [Nat.add_zero]
  rw [hc]

theorem doWithRetryGo_allFail (net : Nat → HttpAttempt)
    (canceled : Nat → Bool)
    (hf : ∀ i, retryableFail (net i) = true)
    (hc : ∀ i, canceled i = false) :
    ∀ (r attempt : Nat), 1 ≤ r → 1 ≤ attempt → ∀ (le : Option String),
      doWithRetryGo net canceled attempt r le =
        ⟨.maxRetriesExceeded (some (attemptErrText (net (attempt + r - 1)))),
         r, (List.range r).map (fun k => 2 ^ (attempt + k - 1))⟩ := by
  intro r
  induction r with
  | zero => intro attempt h; omega
  | succ r ih =>
    intro attempt _ hat le
    have hat0 : attempt ≠ 0 := by omega
    have hx1 : attempt + 1 - 1 = attempt := by omega
    have hx : attempt + 1 + r - 1 = attempt + (r + 1) - 1 := by omega
    cases hn : net attempt with
    | netErr m =>
      rw [doWithRetryGo_step_netErr net canceled attempt r le m hat0
        (hc attempt) hn]
      rcases Nat.eq_zero_or_pos r with hr | hr
      · subst hr
        simp only [doWithRetryGo, hx1, hn]
        rfl
      · rw [ih (attempt + 1) hr (by omega) (some m), hx]
        simp only [RetryTrace.mk.injEq, true_and]
        rw [range_map_shift r (fun k => 2 ^ (attempt + k - 1))]
        have hfn : (fun k => (2 : Nat) ^ (attempt + (k + 1) - 1)) =
            fun k => 2 ^ (attempt + 1 + k - 1) := by
          funext k
          have hz : attempt + (k + 1) - 1 = attempt + 1 + k - 1 := by omega
          rw [hz]
        rw [hfn]
        rfl
    | resp s =>
      have hs : (500 : Nat) ≤ s := by
        have hh := hf attempt
        rw [hn] at hh
        simpa [retryableFail] using hh
      rw [doWithRetryGo_step_resp5 net canceled attempt r le s hat0
        (hc attempt) hn hs]
      rcases Nat.eq_zero_or_pos r with hr | hr
      · subst hr
        simp only [doWithRetryGo, hx1, hn]
        rfl
      · rw [ih (attempt + 1) hr (by omega)
          (some ("server error: " ++ toString s)), hx]
        simp only [RetryTrace.mk.injEq, true_and]
        rw [range_map_shift r (fun k => 2 ^ (attempt + k - 1))]
        have hfn : (fun k => (2 : Nat) ^ (attempt + (k + 1) - 1)) =
            fun k => 2 ^ (attempt + 1 + k - 1) := by
          funext k
          have hz : attempt + (k + 1) - 1 = attempt + 1 + k - 1 := by omega
          rw [hz]
        rw [hfn]
        rfl

theorem doWithRetryGo_successAt (net : Nat → HttpAttempt)
    (canceled : Nat → Bool) (s : Nat) (hc : ∀ i, canceled i = false)
    (hs : s < 500) :
    ∀ (d r attempt : Nat), 1 ≤ attempt → d < r →
      (∀ i, attempt ≤ i → i < attempt + d → retryableFail (net i) = true) →
      net (attempt + d) = .resp s → ∀ (le : Option String),
      doWithRetryGo net canceled attempt r le =
        ⟨.response s, d + 1,
         (List.range (d + 1)).map (fun j => 2 ^ (attempt + j - 1))⟩ := by
  intro d
  induction d with
  | zero =>
    intro r attempt hat hdr hpre hnet le
    obtain ⟨r1, rfl⟩ : ∃ r1, r = r1 + 1 := ⟨r - 1, by omega⟩
    have hnet0 : net attempt = .resp s := by simpa using hnet
    rw [doWithRetryGo_step_respOK net canceled attempt r1 le s (by omega)
      (hc attempt) hnet0 hs]
    rfl
  | succ d ih =>
    intro r attempt hat hdr hpre hnet le
    obtain ⟨r1, rfl⟩ : ∃ r1, r = r1 + 1 := ⟨r - 1, by omega⟩
    have hfail : retryableFail (net attempt) = true :=
      hpre attempt (le_refl _) (by omega)
    have hnet1 : net (attempt + 1 + d) = .resp s := by
      have hz : attempt + 1 + d = attempt + (d + 1) := by omega
      rw [hz]
      exact hnet
    have hd1 : d < r1 := by omega
    have hpre1 : ∀ i, attempt + 1 ≤ i → i < attempt + 1 + d →
        retryableFail (net i) = true :=
      fun i h1 h2 => hpre i (by omega) (by omega)
    have hfn : (fun j => (2 : Nat) ^ (attempt + (j + 1) - 1)) =
        fun j => 2 ^ (attempt + 1 + j - 1) := by
      funext j
      have hz : attempt + (j + 1) - 1 = attempt + 1 + j - 1 := by omega
      rw [hz]
    cases hn : net attempt with
    | netErr m =>
      rw [doWithRetryGo_step_netErr net canceled attempt r1 le m (by omega)
        (hc attempt) hn]
      rw [ih r1 (attempt + 1) (by omega) hd1 hpre1 hnet1 (some m)]
      simp only [RetryTrace.mk.injEq, true_and]
      rw [range_map_shift (d + 1) (fun j => 2 ^ (attempt + j - 1)), hfn]
      rfl
    | resp s2 =>
      have hs2 : (500 : Nat) ≤ s2 := by
        rw [hn] at hfail
        simpa [retryableFail] using hfail
      rw [doWithRetryGo_step_resp5 net canceled attempt r1 le s2 (by omega)
        (hc attempt) hn hs2]
      rw [ih r1 (attempt + 1) (by omega) hd1 hpre1 hnet1 _]
      simp only [RetryTrace.mk.injEq, true_and]
      rw [range_map_shift (d + 1) (fun j => 2 ^ (attempt + j - 1)), hfn]
      rfl

/-- C6 (counterexample): the backoffs of `doWithRetry` are not bounded by
the HTTP timeout — with `MaxRetries` raised to 7 (the configuration
surface allows overriding it) and every attempt answering 500, the slept
backoffs are 1, 2, 4, 8, 16, 32 seconds, and 32 s exceeds the default
30 s HTTP timeout (`NewClient` default); the code never caps the backoff
by the timeout. -/
theorem claim6_transport_retry_counterexample :
    (doWithRetry 7 (fun _ => .resp 500) (fun _ => false)).backoffs =
      [1, 2, 4, 8, 16, 32] ∧
    (newClientConfig 0 0).1 = 30 ∧
    32 ∈ (doWithRetry 7 (fun _ => .resp 500) (fun _ => false)).backoffs ∧
    ¬(32 ≤ 30) := by
  refine ⟨by decide, by decide, by decide, by decide⟩

/-- C6 (amended): `doWithRetry` makes at most `MaxRetries` attempts; a
response with status < 500 — after any run of retryable failures — is
returned verbatim with no further attempt; when every attempt fails with
a transport error or 5xx, exactly `MaxRetries` attempts are made with
backoffs 1 s, 2 s, 4 s, … (2^(k-1) s before the k-th retry, with no cap
from the HTTP timeout) and the last error is wrapped; cancellation firing
during the first backoff aborts with the context error.  The HTTP timeout
bounds each individual attempt, not the backoff. -/
theorem claim6_transport_retry (maxRetries : Nat) (net : Nat → HttpAttempt)
    (canceled : Nat → Bool) :
    ((doWithRetry maxRetries net canceled).attempts ≤ maxRetries) ∧
    (∀ k s, k < maxRetries → (∀ i, i < k → retryableFail (net i) = true) →
      (∀ i, canceled i = false) → net k = .resp s → s < 500 →
      doWithRetry maxRetries net canceled =
        ⟨.response s, k + 1, (List.range k).map (fun j => 2 ^ j)⟩) ∧
    (1 ≤ maxRetries → (∀ i, retryableFail (net i) = true) →
      (∀ i, canceled i = false) →
      doWithRetry maxRetries net canceled =
        ⟨.maxRetriesExceeded (some (attemptErrText (net (maxRetries - 1)))),
         maxRetries,
         (List.range (maxRetries - 1)).map (fun k => 2 ^ k)⟩) ∧
    (2 ≤ maxRetries → retryableFail (net 0) = true → canceled 1 = true →
      doWithRetry maxRetries net canceled = ⟨.canceled, 1, []⟩) := by
  have hfn1 : (fun j => (2 : Nat) ^ (1 + j - 1)) = fun j => 2 ^ j := by
    funext j
    have hz : 1 + j - 1 = j := by omega
    rw [hz]
  refine ⟨doWithRetryGo_attempts_le net canceled maxRetries 0 none, ?_, ?_, ?_⟩
  · intro k s hk hpre hcan hnet hs
    obtain ⟨r1, rfl⟩ : ∃ r1, maxRetries = r1 + 1 := ⟨maxRetries - 1, by omega⟩
    cases k with
    | zero =>
      rw [doWithRetry, doWithRetryGo_zero_respOK net canceled r1 none s hnet hs]
      rfl
    | succ k =>
      have h0 : retryableFail (net 0) = true := hpre 0 (by omega)
      have hnet1 : net (1 + k) = .resp s := by
        have hz : 1 + k = k + 1 := by omega
        rw [hz]
        exact hnet
      have hpre1 : ∀ i, 1 ≤ i → i < 1 + k → retryableFail (net i) = true :=
        fun i h1 h2 => hpre i (by omega)
      rw [doWithRetry]
      cases hn : net 0 with
      | netErr m =>
        rw [doWithRetryGo_zero_netErr net canceled r1 none m hn,
          doWithRetryGo_successAt net canceled s hcan hs k r1 1 (by omega)
            (by omega) hpre1 hnet1 (some m)]
        simp only [RetryTrace.mk.injEq, true_and]
        rw [hfn1]
      | resp s2 =>
        have hs2 : (500 : Nat) ≤ s2 := by
          rw [hn] at h0
          simpa [retryableFail] using h0
        rw [doWithRetryGo_zero_resp5 net canceled r1 none s2 hn hs2,
          doWithRetryGo_successAt net canceled s hcan hs k r1 1 (by omega)
            (by omega) hpre1 hnet1 _]
        simp only [RetryTrace.mk.injEq, true_and]
        rw [hfn1]
  · intro h1 hf hcan
    obtain ⟨r1, rfl⟩ : ∃ r1, maxRetries = r1 + 1 := ⟨maxRetries - 1, by omega⟩
    rw [doWithRetry]
    cases hn : net 0 with
    | netErr m =>
      rw [doWithRetryGo_zero_netErr net canceled r1 none m hn]
      rcases Nat.eq_zero_or_pos r1 with hr | hr
      · subst hr
        simp [doWithRetryGo, hn, attemptErrText]
      · rw [doWithRetryGo_allFail net canceled hf hcan r1 1 hr (by omega)
          (some m)]
        have hz : 1 + r1 - 1 = r1 + 1 - 1 := by omega
        simp only [RetryTrace.mk.injEq, true_and, hz]
        rw [hfn1]
        rfl
    | resp s2 =>
      have hs2 : (500 : Nat) ≤ s2 := by
        have hh := hf 0
        rw [hn] at hh
        simpa [retryableFail] using hh
      rw [doWithRetryGo_zero_resp5 net canceled r1 none s2 hn hs2]
      rcases Nat.eq_zero_or_pos r1 with hr | hr
      · subst hr
        simp [doWithRetryGo, hn, attemptErrText]
      · rw [doWithRetryGo_allFail net canceled hf hcan r1 1 hr (by omega) _]
        have hz : 1 + r1 - 1 = r1 + 1 - 1 := by omega
        simp only [RetryTrace.mk.injEq, true_and, hz]
        rw [hfn1]
        rfl
  · intro h2 hf0 hcan1
    obtain ⟨r2, rfl⟩ : ∃ r2, maxRetries = r2 + 2 := ⟨maxRetries - 2, by omega⟩
    rw [doWithRetry]
    cases hn : net 0 with
    | netErr m =>
      rw [show r2 + 2 = (r2 + 1) + 1 by omega,
        doWithRetryGo_zero_netErr net canceled (r2 + 1) none m hn,
        doWithRetryGo_step_canceled net canceled 1 r2 (some m) (by omega) hcan1]
    | resp s2 =>
      have hs2 : (500 : Nat) ≤ s2 := by
        rw [hn] at hf0
        simpa [retryableFail] using hf0
      rw [show r2 + 2 = (r2 + 1) + 1 by omega,
        doWithRetryGo_zero_resp5 net canceled (r2 + 1) none s2 hn hs2,
        doWithRetryGo_step_canceled net canceled 1 r2 _ (by omega) hcan1]

/-- C6 (witness): the amended statement at concrete inputs — a 503 then a
200 returns the 200 after a single 1 s backoff; three straight transport
failures at the default 3 retries exhaust with backoffs 1 s, 2 s; a 404
is returned verbatim with no retry; cancellation during the first backoff
aborts after one attempt. -/
theorem claim6_transport_retry_witness :
    doWithRetry 3 (fun i => if i = 0 then .resp 503 else .resp 200)
        (fun _ => false) = ⟨.response 200, 2, [1]⟩ ∧
    doWithRetry 3 (fun _ => .netErr "dial tcp: refused") (fun _ => false) =
      ⟨.maxRetriesExceeded (some "dial tcp: refused"), 3, [1, 2]⟩ ∧
    doWithRetry 3 (fun _ => .resp 404) (fun _ => false) =
      ⟨.response 404, 1, []⟩ ∧
    doWithRetry 3 (fun _ => .resp 500) (fun i => i = 1) =
      ⟨.canceled, 1, []⟩ := by
  refine ⟨?_, ?_, ?_, ?_⟩
  · rw [(claim6_transport_retry 3
      (fun i => if i = 0 then .resp 503 else .resp 200) (fun _ => false)).2.1
      1 200 (by omega) (fun i hi => by
        have hz0 : i = 0 := by omega
        subst hz0
        decide)
      (fun i => rfl) (by decide) (by omega)]
    rfl
  · rw [(claim6_transport_retry 3 (fun _ => .netErr "dial tcp: refused")
      (fun _ => false)).2.2.1 (by omega) (fun i => rfl) (fun i => rfl)]
    rfl
  · rw [(claim6_transport_retry 3 (fun _ => .resp 404) (fun _ => false)).2.1
      0 404 (by omega) (fun i hi => absurd hi (by omega)) (fun i => rfl)
      rfl (by omega)]
    rfl
  · rw [(claim6_transport_retry 3 (fun _ => .resp 500)
      (fun i => i = 1)).2.2.2 (by omega) rfl (by decide)]

/-- C9: `FetchNextJob` issues a GET of the jobs endpoint, appending the
kind, printer-code and lease-duration filters only when set; a 200
response whose `data` field is null yields an empty result (`none`); the
`lease_duration` parameter is omitted when non-positive, in which case the
lease defaults to 60 s server-side, and the effective lease is always
bounded to 10…300 s (server behaviour modelled from the spec and the
`FetchNextJobParams` doc comment). -/
theorem claim9_fetch_next :
    (fetchNextMethod = "GET" ∧
     fetchNextURL "https://api.example" none =
       "https://api.example/api/printer-agent/jobs/next" ∧
     fetchNextURL "https://api.example" (some ⟨"receipt", "r1", 60⟩) =
       "https://api.example/api/printer-agent/jobs/next?type=receipt&printer_code=r1&lease_duration=60" ∧
     fetchNextURL "https://api.example" (some ⟨"", "", 0⟩) =
       "https://api.example/api/printer-agent/jobs/next") ∧
    (∀ (ok : Bool) (job : Option Job),
      fetchNextResult 200 (some (ok, none)) = .ok none ∧
      fetchNextResult 200 (some (ok, job)) = .ok job) ∧
    (∀ p : FetchNextJobParams, p.leaseDuration ≤ 0 →
      serverLeaseDuration (sentLeaseDuration (some p)) = 60) ∧
    (∀ sd, 10 ≤ serverLeaseDuration sd ∧ serverLeaseDuration sd ≤ 300) ∧
    (∀ v : Int, 10 ≤ v → v ≤ 300 → serverLeaseDuration (some v) = v) := by
  refine ⟨⟨rfl, by decide, by decide, by decide⟩, ?_, ?_, ?_, ?_⟩
  · intro ok job
    exact ⟨rfl, rfl⟩
  · intro p hp
    simp [sentLeaseDuration, serverLeaseDuration, not_lt.mpr hp]
  · intro sd
    cases sd with
    | none => exact ⟨by norm_num [serverLeaseDuration], by norm_num [serverLeaseDuration]⟩
    | some v =>
      refine ⟨le_max_left _ _, max_le (by norm_num) (min_le_left _ _)⟩
  · intro v h1 h2
    simp only [serverLeaseDuration]
    rw [min_eq_right h2, max_eq_right h1]

/-- C9 (witness): the lease-duration contract at concrete parameters — an
omitted filter defaults to 60 s, an in-range value passes through, and
out-of-range values are clamped into 10…300 s. -/
theorem claim9_fetch_next_witness :
    serverLeaseDuration (sentLeaseDuration (some ⟨"", "", 0⟩)) = 60 ∧
    serverLeaseDuration (some 60) = 60 ∧
    10 ≤ serverLeaseDuration (some 1) ∧
    serverLeaseDuration (some 1000) ≤ 300 :=
  ⟨claim9_fetch_next.2.2.1 ⟨"", "", 0⟩ (by norm_num),
   claim9_fetch_next.2.2.2.2 60 (by norm_num) (by norm_num),
   (claim9_fetch_next.2.2.2.1 (some 1)).1,
   (claim9_fetch_next.2.2.2.1 (some 1000)).2⟩

theorem lookupBool_cons (k : String) (v : Bool) (m : List (String × Bool))
    (id : String) :
    lookupBool ((k, v) :: m) id = if k = id then v else lookupBool m id := by
  by_cases h : k = id
  · simp [lookupBool, List.find?, h]
  · simp [lookupBool, List.find?, h]

theorem lookupBool_scanMap (scan : List ScannedDevice) :
    (scan.map ScannedDevice.id).Nodup →
    ∀ dev ∈ scan,
      lookupBool (scan.map (fun d => (d.id, d.avail))) dev.id = dev.avail := by
  induction scan with
  | nil =>
    intro hnd dev h
    simp at h
  | cons d rest ih =>
    intro hnd dev hdev
    have hnd2 : (∀ x ∈ rest, ¬x.id = d.id) ∧
        (rest.map ScannedDevice.id).Nodup := by
      simpa using hnd
    rcases List.mem_cons.mp hdev with rfl | hmem
    · simp [lookupBool_cons]
    · have hne : d.id ≠ dev.id := fun he => hnd2.1 dev hmem he.symm
      simp only [List.map_cons, lookupBool_cons, if_neg hne]
      exact ih hnd2.2 dev hmem

theorem detectAddPhase_stable (prev : List (String × Bool)) :
    ∀ (scan : List ScannedDevice),
      (∀ dev ∈ scan, lookupBool prev dev.id = dev.avail) →
      ∀ printers, (detectAddPhase prev scan printers).2 = [] := by
  intro scan
  induction scan with
  | nil => intro h printers; rfl
  | cons d rest ih =>
    intro h printers
    have hd := h d (by simp)
    have hrest : ∀ dev ∈ rest, lookupBool prev dev.id = dev.avail :=
      fun dev hm => h dev (by simp [hm])
    cases hav : d.avail with
    | true =>
      have hgoal : detectAddPhase prev (d :: rest) printers =
          detectAddPhase prev rest (upsertAvailable printers d) := by
        simp [detectAddPhase, hd, hav]
      rw [hgoal]
      exact ih hrest _
    | false =>
      have hgoal : detectAddPhase prev (d :: rest) printers =
          detectAddPhase prev rest printers := by
        simp [detectAddPhase, hd, hav]
      rw [hgoal]
      exact ih hrest _

theorem detectRemovePhase_stable (scan : List ScannedDevice) :
    ∀ (entries : List (String × Bool)),
      (∀ e ∈ entries, e.2 = true →
        scan.any (fun x => x.id = e.1 && x.avail) = true) →
      ∀ printers, (detectRemovePhase scan entries printers).2 = [] := by
  intro entries
  induction entries with
  | nil => intro h printers; rfl
  | cons e rest ih =>
    intro h printers
    have hrest : ∀ x ∈ rest, x.2 = true →
        scan.any (fun d => d.id = x.1 && d.avail) = true :=
      fun x hm => h x (by simp [hm])
    cases hv : e.2 with
    | true =>
      have hany := h e (by simp) hv
      have hcond : (e.2 && !(scan.any (fun d => d.id = e.1 && d.avail))) =
          false := by
        rw [hv, hany]
        rfl
      have hgoal : detectRemovePhase scan (e :: rest) printers =
          detectRemovePhase scan rest printers := by
        simp only [detectRemovePhase, hcond, Bool.false_eq_true, if_false]
      rw [hgoal]
      exact ih hrest _
    | false =>
      have hcond : (e.2 && !(scan.any (fun d => d.id = e.1 && d.avail))) =
          false := by
        rw [hv]
        rfl
      have hgoal : detectRemovePhase scan (e :: rest) printers =
          detectRemovePhase scan rest printers := by
        simp only [detectRemovePhase, hcond, Bool.false_eq_true, if_false]
      rw [hgoal]
      exact ih hrest _

/-- C8: when two successive `DetectChanges` calls observe the same device
set with the same per-device writability, the second call reports
`Changed = false` with empty added and removed lists, for every starting
registry state. -/
theorem claim8_diff_determinism (st : RegistryState)
    (scan : List ScannedDevice)
    (hnd : (scan.map ScannedDevice.id).Nodup) :
    (detectChanges (detectChanges st scan).1 scan).2.changed = false ∧
    (detectChanges (detectChanges st scan).1 scan).2.added = [] ∧
    (detectChanges (detectChanges st scan).1 scan).2.removed = [] := by
  have hadd : ∀ printers,
      (detectAddPhase (scan.map (fun d => (d.id, d.avail))) scan
        printers).2 = [] :=
    detectAddPhase_stable _ scan (lookupBool_scanMap scan hnd)
  have hrem : ∀ printers,
      (detectRemovePhase scan (scan.map (fun d => (d.id, d.avail)))
        printers).2 = [] := by
    apply detectRemovePhase_stable
    intro e he hv
    obtain ⟨d, hdm, rfl⟩ := List.mem_map.mp he
    simp only at hv
    simp only [List.any_eq_true]
    exact ⟨d, hdm, by simp [hv]⟩
  refine ⟨?_, ?_, ?_⟩
  · simp [detectChanges, hadd, hrem]
  · simp [detectChanges, hadd]
  · simp [detectChanges, hrem]

/-- C8 (witness): the second of two identical scans — one writable receipt
device and one unwritable label device — reports no changes. -/
theorem claim8_diff_determinism_witness :
    (detectChanges
        (detectChanges ⟨[], []⟩
          [⟨"epson-receipt", "/dev/usb/epson_tmt20iii", "receipt", true⟩,
           ⟨"brother-label", "/dev/usb/brother_ql800", "label", false⟩]).1
        [⟨"epson-receipt", "/dev/usb/epson_tmt20iii", "receipt", true⟩,
         ⟨"brother-label", "/dev/usb/brother_ql800", "label", false⟩]).2.changed =
      false :=
  (claim8_diff_determinism ⟨[], []⟩
    [⟨"epson-receipt", "/dev/usb/epson_tmt20iii", "receipt", true⟩,
     ⟨"brother-label", "/dev/usb/brother_ql800", "label", false⟩]
    (by decide)).1

theorem countP_set_add {α : Type} (p : α → Bool) :
    ∀ (l : List α) (i : Nat) (v : α) (h : i < l.length),
      (l.set i v).countP p + (if p (l.get ⟨i, h⟩) then 1 else 0) =
        l.countP p + (if p v then 1 else 0) := by
  intro l
  induction l with
  | nil => intro i v h; simp at h
  | cons a t ih =>
    intro i v h
    cases i with
    | zero =>
      simp only [List.set, List.countP_cons, List.get]
      omega
    | succ i =>
      simp only [List.set, List.countP_cons, List.get]
      have hih := ih i v (by simpa using h)
      omega

theorem sysStep_inv (s : SysState) (tid : Nat)
    (hnd : s.held.Nodup)
    (hcnt : ∀ id, s.threads.countP (isDriverOf id) =
      if id ∈ s.held then 1 else 0) :
    (sysStep s tid).held.Nodup ∧
    ∀ id, (sysStep s tid).threads.countP (isDriverOf id) =
      if id ∈ (sysStep s tid).held then 1 else 0 := by
  cases hg : s.threads.get? tid with
  | none =>
    simp only [sysStep, hg]
    exact ⟨hnd, hcnt⟩
  | some ph =>
    obtain ⟨hlt, hget⟩ : ∃ h : tid < s.threads.length,
        s.threads.get ⟨tid, h⟩ = ph := by
      rcases List.get?_eq_some.mp hg with ⟨h, hh⟩
      exact ⟨h, hh⟩
    cases ph with
    | wantLock id =>
      by_cases hmem : id ∈ s.held
      · simp only [sysStep, hg, if_pos hmem]
        exact ⟨hnd, hcnt⟩
      · simp only [sysStep, hg, if_neg hmem]
        refine ⟨List.nodup_cons.mpr ⟨hmem, hnd⟩, ?_⟩
        intro id2
        have hset := countP_set_add (isDriverOf id2) s.threads tid
          (.inDriver id) hlt
        rw [hget] at hset
        have hw : isDriverOf id2 (TPhase.wantLock id) = false := rfl
        by_cases hid : id = id2
        · subst hid
          have h0 := hcnt id
          rw [if_neg hmem] at h0
          have hdv : isDriverOf id (TPhase.inDriver id) = true := by
            simp [isDriverOf]
          rw [hw, hdv] at hset
          norm_num at hset
          have hmem2 : id ∈ id :: s.held := List.mem_cons_self id s.held
          rw [if_pos hmem2]
          omega
        · have hdv : isDriverOf id2 (TPhase.inDriver id) = false := by
            simp only [isDriverOf, decide_eq_false_iff_not]
            exact hid
          rw [hw, hdv] at hset
          norm_num at hset
          have hmem2 : (id2 ∈ id :: s.held) ↔ (id2 ∈ s.held) := by
            constructor
            · intro hm
              rcases List.mem_cons.mp hm with he | hm2
              · exact absurd he.symm hid
              · exact hm2
            · intro hm
              exact List.mem_cons_of_mem id hm
          rw [if_congr hmem2 rfl rfl, ← hcnt id2]
          omega
    | inDriver id =>
      simp only [sysStep, hg]
      have hpos : 0 < s.threads.countP (isDriverOf id) := by
        rw [List.countP_pos_iff]
        exact ⟨s.threads.get ⟨tid, hlt⟩, List.get_mem s.threads tid hlt,
          by rw [hget]; simp [isDriverOf]⟩
      have hmem : id ∈ s.held := by
        by_contra hm
        have h0 := hcnt id
        rw [if_neg hm] at h0
        omega
      refine ⟨hnd.erase id, ?_⟩
      intro id2
      have hset := countP_set_add (isDriverOf id2) s.threads tid
        TPhase.done hlt
      rw [hget] at hset
      have hw : isDriverOf id2 TPhase.done = false := rfl
      by_cases hid : id = id2
      · subst hid
        have h1 := hcnt id
        rw [if_pos hmem] at h1
        have hdv : isDriverOf id (TPhase.inDriver id) = true := by
          simp [isDriverOf]
        rw [hw, hdv] at hset
        norm_num at hset
        have hne : id ∉ s.held.erase id := hnd.not_mem_erase
        rw [if_neg hne]
        omega
      · have hdv : isDriverOf id2 (TPhase.inDriver id) = false := by
          simp only [isDriverOf, decide_eq_false_iff_not]
          exact hid
        rw [hw, hdv] at hset
        norm_num at hset
        have hmem2 : (id2 ∈ s.held.erase id) ↔ (id2 ∈ s.held) :=
          List.mem_erase_of_ne (fun he => hid he.symm)
        rw [if_congr hmem2 rfl rfl, ← hcnt id2]
        omega
    | done =>
      simp only [sysStep, hg]
      exact ⟨hnd, hcnt⟩

theorem sysRun_inv : ∀ (sched : List Nat) (s : SysState),
    s.held.Nodup →
    (∀ id, s.threads.countP (isDriverOf id) =
      if id ∈ s.held then 1 else 0) →
    (sysRun s sched).held.Nodup ∧
    ∀ id, (sysRun s sched).threads.countP (isDriverOf id) =
      if id ∈ (sysRun s sched).held then 1 else 0 := by
  intro sched
  induction sched with
  | nil => intro s h1 h2; exact ⟨h1, h2⟩
  | cons tid rest ih =>
    intro s h1 h2
    have hstep := sysStep_inv s tid h1 h2
    exact ih (sysStep s tid) hstep.1 hstep.2

theorem noClash_true (a : TPhase) :
    ∀ t : List TPhase, (∀ b ∈ t, sameDriverClash a b = false) →
      noClash a t = true := by
  intro t
  induction t with
  | nil => intro h; rfl
  | cons b rest ih =>
    intro h
    simp only [noClash, Bool.and_eq_true, Bool.not_eq_true']
    exact ⟨h b (by simp), ih (fun x hx => h x (by simp [hx]))⟩

theorem exclusionOK_of_counts :
    ∀ threads : List TPhase,
      (∀ id, threads.countP (isDriverOf id) ≤ 1) →
      exclusionOK threads = true := by
  intro threads
  induction threads with
  | nil => intro h; rfl
  | cons a t ih =>
    intro h
    simp only [exclusionOK, Bool.and_eq_true]
    constructor
    · cases a with
      | wantLock id =>
        exact noClash_true _ t (fun b hb => by cases b <;> rfl)
      | done =>
        exact noClash_true _ t (fun b hb => by cases b <;> rfl)
      | inDriver id =>
        have h1 := h id
        rw [List.countP_cons] at h1
        have hd : isDriverOf id (TPhase.inDriver id) = true := by
          simp [isDriverOf]
        rw [hd] at h1
        simp only [if_true] at h1
        have h0 : t.countP (isDriverOf id) = 0 := by omega
        have hall := List.countP_eq_zero.mp h0
        refine noClash_true _ t (fun b hb => ?_)
        cases b with
        | inDriver y =>
          have hy := hall _ hb
          simp only [isDriverOf, decide_eq_true_eq] at hy
          have hne : ¬id = y := fun he => hy he.symm
          simp [sameDriverClash, hne]
        | wantLock y => rfl
        | done => rfl
    · refine ih (fun id => ?_)
      have h1 := h id
      rw [List.countP_cons] at h1
      omega

theorem sysInit_inv (ids : List String) :
    (sysInit ids).held.Nodup ∧
    ∀ id, (sysInit ids).threads.countP (isDriverOf id) =
      if id ∈ (sysInit ids).held then 1 else 0 := by
  refine ⟨List.nodup_nil, ?_⟩
  intro id
  simp only [sysInit, List.not_mem_nil, if_neg (fun h => h)]
  rw [List.countP_eq_zero]
  intro a ha
  obtain ⟨x, hx, rfl⟩ := List.mem_map.mp ha
  simp [isDriverOf]

theorem getMutex_lookup (st : MutexMapState) (id : String) :
    mutexLookup (getMutex st id).1 id = some (getMutex st id).2 := by
  cases hf : st.entries.find? (fun e => e.1 = id) with
  | some e => simp [getMutex, mutexLookup, hf]
  | none =>
    simp only [getMutex, mutexLookup, hf]
    rw [List.find?_append, hf]
    simp [List.find?]

theorem getMutex_preserves (st : MutexMapState) (id id2 : String) (v : Nat)
    (h : mutexLookup st id = some v) :
    mutexLookup (getMutex st id2).1 id = some v := by
  cases hf : st.entries.find? (fun e => e.1 = id2) with
  | some e => simpa [getMutex, hf] using h
  | none =>
    simp only [getMutex, mutexLookup, hf]
    rw [List.find?_append]
    simp only [mutexLookup] at h
    cases hfi : st.entries.find? (fun e => e.1 = id) with
    | none => rw [hfi] at h; simp at h
    | some e2 =>
      rw [hfi] at h
      simpa using h

theorem getMutexRun_preserves :
    ∀ (calls : List String) (st : MutexMapState) (id : String) (v : Nat),
      mutexLookup st id = some v →
      mutexLookup (getMutexRun st calls).1 id = some v := by
  intro calls
  induction calls with
  | nil => intro st id v h; exact h
  | cons c rest ih =>
    intro st id v h
    exact ih (getMutex st c).1 id v (getMutex_preserves st id c v h)

theorem getMutexRun_result :
    ∀ (calls : List String) (st : MutexMapState) (i : Nat) (id : String),
      calls.get? i = some id →
      ∃ v, (getMutexRun st calls).2.get? i = some v ∧
        mutexLookup (getMutexRun st calls).1 id = some v := by
  intro calls
  induction calls with
  | nil => intro st i id h; simp at h
  | cons c rest ih =>
    intro st i id h
    cases i with
    | zero =>
      simp only [List.get?] at h
      have hcid : c = id := by injection h
      subst hcid
      refine ⟨(getMutex st c).2, by simp [getMutexRun], ?_⟩
      exact getMutexRun_preserves rest (getMutex st c).1 c _
        (getMutex_lookup st c)
    | succ i =>
      simp only [List.get?] at h
      obtain ⟨v, hv1, hv2⟩ := ih (getMutex st c).1 i id h
      exact ⟨v, by simpa [getMutexRun] using hv1,
        by simpa [getMutexRun] using hv2⟩

/-- C4: for any set of per-job Dispatch threads and any interleaving, no
two threads are ever inside the driver call for the same printer id at
once (each must hold that printer's mutex, lazily allocated in the mutex
map, before entering); threads on distinct printer ids can be inside
their driver calls simultaneously; and the lazily populated map hands out
the same mutex for every call with the same printer id. -/
theorem claim4_mutual_exclusion :
    (∀ (ids : List String) (sched : List Nat),
      exclusionOK (sysRun (sysInit ids) sched).threads = true) ∧
    ((sysRun (sysInit ["r1", "l1"]) [0, 1]).threads =
      [.inDriver "r1", .inDriver "l1"]) ∧
    (∀ (calls : List String) (i j : Nat) (id : String),
      calls.get? i = some id → calls.get? j = some id →
      (mutexResults calls).get? i = (mutexResults calls).get? j) := by
  refine ⟨?_, by decide, ?_⟩
  · intro ids sched
    have hinit := sysInit_inv ids
    have hinv := sysRun_inv sched (sysInit ids) hinit.1 hinit.2
    refine exclusionOK_of_counts _ (fun id => ?_)
    rw [hinv.2 id]
    split <;> omega
  · intro calls i j id hi hj
    obtain ⟨v1, h1, h1l⟩ := getMutexRun_result calls ⟨[], 0⟩ i id hi
    obtain ⟨v2, h2, h2l⟩ := getMutexRun_result calls ⟨[], 0⟩ j id hj
    have hv : v1 = v2 := by
      rw [h1l] at h2l
      injection h2l
    rw [mutexResults, h1, h2, hv]

/-- C4 (witness): with three serialized `getMutex` calls for ids p, q, p,
the first and third call receive the same mutex; and one thread entering
its driver call preserves exclusion. -/
theorem claim4_mutual_exclusion_witness :
    (mutexResults ["p", "q", "p"]).get? 0 =
      (mutexResults ["p", "q", "p"]).get? 2 ∧
    exclusionOK (sysRun (sysInit ["p", "p"]) [0, 1]).threads = true :=
  ⟨claim4_mutual_exclusion.2.2 ["p", "q", "p"] 0 2 "p" rfl rfl,
   claim4_mutual_exclusion.1 ["p", "p"] [0, 1]⟩

end PrinterAgent
